import Mathlib

/-!
# Verification of the Bounded Retry Executor (`src/retry/index.js`)

Shallow embedding of `retryOperation(operation, retries, delay)`.

The JavaScript source:

```js
function retryOperation(operation, retries, delay) {
  return new Promise((resolve, reject) => {
    function attemptOperation() {
      console.log("Retries Left: ", retries);
      operation()
        .then(resolve)
        .catch(() => {
          if (retries <= 0) {
            reject(new Error("Maximum retries exhausted!"));
          } else {
            retries--;
            setTimeout(attemptOperation, delay);
          }
        });
    }
    attemptOperation();
  });
}
```

Modelling choices:
* An operation is a function `op : Nat → Outcome α ρ` giving the settled
  outcome of its `i`-th invocation (0-indexed).  Every invocation settles,
  matching the claims' hypothesis that each attempt produces a deferred
  outcome of exactly one of two kinds.
* The mutable closure variable `retries` is an integer (`Int`, since the
  code compares with `retries <= 0` and nothing restricts it to be
  non-negative) threaded through the recursion; `retries--` followed by the
  rescheduled `attemptOperation` becomes a recursive call at `retries - 1`.
* A JS `Error` value is a message plus the optional ES2022 `cause`
  property; `new Error(msg)` leaves `cause` unset (`none`).
* `attemptOperation` additionally returns the number of operation
  invocations performed, the observable the spec counts.
* Timing (`setTimeout`) and the state machine are modelled by explicit
  event / state traces (`eventTrace`, `stateTrace`) extracted from the same
  control flow.
-/

/-- Settled outcome of one invocation of the wrapped operation:
`operation()` either fulfills with a value or rejects with a reason. -/
inductive Outcome (α ρ : Type) where
  | success (v : α)
  | failure (r : ρ)
deriving DecidableEq, Repr

/-- A JavaScript `Error` value: its `message` and the optional ES2022
`cause` property.  `new Error(msg)` sets `message := msg` and leaves
`cause` unset. -/
structure JSError (ρ : Type) where
  message : String
  cause : Option ρ
deriving DecidableEq, Repr

/-- How the promise returned by `retryOperation` settles. -/
inductive RetryResult (α ρ : Type) where
  | resolved (v : α)
  | rejected (e : JSError ρ)
deriving DecidableEq, Repr

/-- The error constructed by `reject(new Error("Maximum retries exhausted!"))`:
note the `catch` handler binds no argument, so no cause is attached. -/
def maxRetriesError {ρ : Type} : JSError ρ :=
  { message := "Maximum retries exhausted!", cause := none }

/-- Whether an outcome is a success (`then` branch taken). -/
def Outcome.isSuccess {α ρ : Type} : Outcome α ρ → Bool
  | .success _ => true
  | .failure _ => false

/-- Whether a settled retry result is a fulfillment. -/
def RetryResult.isResolved {α ρ : Type} : RetryResult α ρ → Bool
  | .resolved _ => true
  | .rejected _ => false

/-- The `cause` carried by a rejection, if any. -/
def RetryResult.errCause {α ρ : Type} : RetryResult α ρ → Option ρ
  | .resolved _ => none
  | .rejected e => e.cause

/-- The inner `attemptOperation` closure: invoke `op` at attempt index `i`
with current value `retries` of the captured counter.  On success resolve
with the value; on failure either reject (when `retries <= 0`) or decrement
and re-attempt.  Returns the settled result paired with the number of
operation invocations performed.  `delay` is carried (it is passed to
`setTimeout`) but does not affect which result is produced. -/
def attemptOperation {α ρ : Type} (op : Nat → Outcome α ρ) (delay : Nat)
    (retries : Int) (i : Nat) : RetryResult α ρ × Nat :=
  match op i with
  | .success v => (.resolved v, 1)
  | .failure _ =>
    if h : retries ≤ 0 then
      (.rejected maxRetriesError, 1)
    else
      have : (retries - 1).toNat < retries.toNat := by omega
      let rest := attemptOperation op delay (retries - 1) (i + 1)
      (rest.1, rest.2 + 1)
termination_by retries.toNat

/-- `retryOperation(operation, retries, delay)`: kick off the first attempt
immediately. -/
def retryOperation {α ρ : Type} (op : Nat → Outcome α ρ) (retries : Int)
    (delay : Nat) : RetryResult α ρ × Nat :=
  attemptOperation op delay retries 0

/-- Scheduling events observable during one `retryOperation` call:
`invoke i` is the `operation()` call of attempt `i`; `wait d` is the
`setTimeout(attemptOperation, delay)` suspension, which resumes no earlier
than `d` after it is scheduled. -/
inductive Event where
  | invoke (i : Nat)
  | wait (d : Nat)
deriving DecidableEq, Repr

/-- Events that follow the invocation of attempt `i` (made with counter
value `retries`): nothing on success or exhaustion; otherwise the
`setTimeout` wait, the next invocation and whatever follows it. -/
def eventTraceRest {α ρ : Type} (op : Nat → Outcome α ρ) (delay : Nat)
    (retries : Int) (i : Nat) : List Event :=
  match op i with
  | .success _ => []
  | .failure _ =>
    if h : retries ≤ 0 then []
    else
      have : (retries - 1).toNat < retries.toNat := by omega
      Event.wait delay :: Event.invoke (i + 1) ::
        eventTraceRest op delay (retries - 1) (i + 1)
termination_by retries.toNat

/-- Full scheduling trace of `retryOperation op retries delay`: the first
invocation happens immediately (no wait precedes it). -/
def eventTrace {α ρ : Type} (op : Nat → Outcome α ρ) (delay : Nat)
    (retries : Int) (i : Nat) : List Event :=
  Event.invoke i :: eventTraceRest op delay retries i

/-- Strict alternation with delay `d`: after an invocation only a wait of
exactly the configured delay may follow, and after a wait only an
invocation. -/
def eventSep (d : Nat) : Event → Event → Prop
  | Event.invoke _, Event.wait d2 => d2 = d
  | Event.wait _, Event.invoke _ => True
  | _, _ => False

/-- States of the executor's control flow, following the spec's machine:
`attempting r i` is attempt `i` in flight with counter `r`; `waiting d r i`
is the `setTimeout` suspension of length `d` before attempt `i`, entered
with the already-decremented counter `r`. -/
inductive RState (α ρ : Type) where
  | idle
  | attempting (retries : Int) (i : Nat)
  | waiting (d : Nat) (retries : Int) (i : Nat)
  | succeeded (v : α)
  | failed (e : JSError ρ)
deriving DecidableEq, Repr

/-- Whether a state is terminal (the promise has settled). -/
def RState.isTerminal {α ρ : Type} : RState α ρ → Bool
  | .succeeded _ => true
  | .failed _ => true
  | _ => false

/-- States visited after entering `attempting retries i`: success settles;
failure with `retries ≤ 0` settles with the exhaustion error; otherwise the
counter is decremented, the executor waits, and attempt `i + 1` follows. -/
def stateTraceRest {α ρ : Type} (op : Nat → Outcome α ρ) (delay : Nat)
    (retries : Int) (i : Nat) : List (RState α ρ) :=
  match op i with
  | .success v => [RState.succeeded v]
  | .failure _ =>
    if h : retries ≤ 0 then [RState.failed maxRetriesError]
    else
      have : (retries - 1).toNat < retries.toNat := by omega
      RState.waiting delay (retries - 1) (i + 1) ::
        RState.attempting (retries - 1) (i + 1) ::
          stateTraceRest op delay (retries - 1) (i + 1)
termination_by retries.toNat

/-- State trace from the first attempt on (the executor moves from `idle`
to `attempting retries 0` when invoked). -/
def stateTrace {α ρ : Type} (op : Nat → Outcome α ρ) (delay : Nat)
    (retries : Int) (i : Nat) : List (RState α ρ) :=
  RState.attempting retries i :: stateTraceRest op delay retries i

/-- The transition relation of the spec's state machine, read off the code:
invocation starts the first attempt; success settles; failure settles when
the counter is exhausted; otherwise the counter is decremented exactly as
the machine enters `waiting`, and resuming re-enters `attempting` with the
counter unchanged.  `succeeded` and `failed` have no outgoing transitions. -/
inductive RetryStep {α ρ : Type} (op : Nat → Outcome α ρ) (delay : Nat) :
    RState α ρ → RState α ρ → Prop where
  | start (n : Int) : RetryStep op delay .idle (.attempting n 0)
  | succeed {r : Int} {i : Nat} {v : α} (h : op i = .success v) :
      RetryStep op delay (.attempting r i) (.succeeded v)
  | exhaust {r : Int} {i : Nat} {e : ρ} (h : op i = .failure e) (hr : r ≤ 0) :
      RetryStep op delay (.attempting r i) (.failed maxRetriesError)
  | toWait {r : Int} {i : Nat} {e : ρ} (h : op i = .failure e) (hr : 0 < r) :
      RetryStep op delay (.attempting r i) (.waiting delay (r - 1) (i + 1))
  | resume {r : Int} {i : Nat} :
      RetryStep op delay (.waiting delay r i) (.attempting r i)

/-- Per-state invariant for an execution configured with delay `d`:
in-flight states carry a non-negative counter, and every wait uses the
configured delay. -/
def stateOk {α ρ : Type} (d : Nat) : RState α ρ → Prop
  | .attempting r _ => 0 ≤ r
  | .waiting d2 r _ => 0 ≤ r ∧ d2 = d
  | _ => True

/-- An operation that rejects every invocation with reason
`"network error"`, used as a concrete test input. -/
def alwaysFailNet : Nat → Outcome Nat String :=
  fun _ => .failure "network error"

/-- An operation that rejects every invocation with reason `"timeout"`,
used as a concrete test input. -/
def alwaysFailTimeout : Nat → Outcome Nat String :=
  fun _ => .failure "timeout"

/-- An operation that fails twice with `"network error"` and then succeeds
with `42`, the spec's concrete scenario. -/
def failTwiceThen42 : Nat → Outcome Nat String :=
  fun i => if i < 2 then .failure "network error" else .success 42

section StepLemmas

variable {α ρ : Type} (op : Nat → Outcome α ρ) (delay : Nat)

/-- Unfolding: a successful invocation resolves at once with that value. -/
theorem attemptOperation_success {i : Nat} {v : α} {retries : Int}
    (h : op i = .success v) :
    attemptOperation op delay retries i = (.resolved v, 1) := by
  rw [attemptOperation, h]

/-- Unfolding: a failed invocation with the counter exhausted rejects. -/
theorem attemptOperation_exhausted {i : Nat} {r : ρ} {retries : Int}
    (h : op i = .failure r) (hr : retries ≤ 0) :
    attemptOperation op delay retries i = (.rejected maxRetriesError, 1) := by
  rw [attemptOperation, h]
  simp [hr]

/-- Unfolding: a failed invocation with budget left decrements and
re-attempts. -/
theorem attemptOperation_retry {i : Nat} {r : ρ} {retries : Int}
    (h : op i = .failure r) (hr : 0 < retries) :
    attemptOperation op delay retries i =
      ((attemptOperation op delay (retries - 1) (i + 1)).1,
       (attemptOperation op delay (retries - 1) (i + 1)).2 + 1) := by
  rw [attemptOperation, h]
  simp [show ¬ retries ≤ 0 by omega]

/-- Unfolding: after a successful invocation no further event occurs. -/
theorem eventTraceRest_success {i : Nat} {v : α} {retries : Int}
    (h : op i = .success v) :
    eventTraceRest op delay retries i = [] := by
  rw [eventTraceRest, h]

/-- Unfolding: after a failure with the counter exhausted no further event
occurs. -/
theorem eventTraceRest_exhausted {i : Nat} {r : ρ} {retries : Int}
    (h : op i = .failure r) (hr : retries ≤ 0) :
    eventTraceRest op delay retries i = [] := by
  rw [eventTraceRest, h]
  simp [hr]

/-- Unfolding: after a failure with budget left, the executor waits and
invokes the next attempt. -/
theorem eventTraceRest_retry {i : Nat} {r : ρ} {retries : Int}
    (h : op i = .failure r) (hr : 0 < retries) :
    eventTraceRest op delay retries i =
      Event.wait delay :: Event.invoke (i + 1) ::
        eventTraceRest op delay (retries - 1) (i + 1) := by
  rw [eventTraceRest, h]
  simp [show ¬ retries ≤ 0 by omega]

/-- Unfolding: a successful attempt moves straight to `succeeded`. -/
theorem stateTraceRest_success {i : Nat} {v : α} {retries : Int}
    (h : op i = .success v) :
    stateTraceRest op delay retries i = [RState.succeeded v] := by
  rw [stateTraceRest, h]

/-- Unfolding: a failed attempt with the counter exhausted moves to
`failed`. -/
theorem stateTraceRest_exhausted {i : Nat} {r : ρ} {retries : Int}
    (h : op i = .failure r) (hr : retries ≤ 0) :
    stateTraceRest op delay retries i = [RState.failed maxRetriesError] := by
  rw [stateTraceRest, h]
  simp [hr]

/-- Unfolding: a failed attempt with budget left decrements the counter,
waits, and re-attempts. -/
theorem stateTraceRest_retry {i : Nat} {r : ρ} {retries : Int}
    (h : op i = .failure r) (hr : 0 < retries) :
    stateTraceRest op delay retries i =
      RState.waiting delay (retries - 1) (i + 1) ::
        RState.attempting (retries - 1) (i + 1) ::
          stateTraceRest op delay (retries - 1) (i + 1) := by
  rw [stateTraceRest, h]
  simp [show ¬ retries ≤ 0 by omega]

end StepLemmas

/-- A non-successful outcome is a failure with some reason. -/
theorem Outcome.exists_failure_of_not_isSuccess {α ρ : Type} {o : Outcome α ρ}
    (h : o.isSuccess = false) : ∃ r, o = .failure r := by
  cases o with
  | success v => simp [Outcome.isSuccess] at h
  | failure r => exact ⟨r, rfl⟩

/-- An operation failing on every invocation drives `attemptOperation`,
entered with `n` retries left, to the exhaustion rejection after exactly
`n + 1` invocations. -/
theorem attemptOperation_allFail {α ρ : Type} (op : Nat → Outcome α ρ)
    (delay : Nat) (n : Nat) (i : Nat)
    (h : ∀ j, (op j).isSuccess = false) :
    attemptOperation op delay (n : Int) i =
      (.rejected maxRetriesError, n + 1) := by
  induction n generalizing i with
  | zero =>
    obtain ⟨r, hr⟩ := Outcome.exists_failure_of_not_isSuccess (h i)
    rw [attemptOperation_exhausted op delay hr (by omega)]
  | succ m ih =>
    obtain ⟨r, hr⟩ := Outcome.exists_failure_of_not_isSuccess (h i)
    rw [attemptOperation_retry op delay hr (by positivity)]
    have hcast : ((m + 1 : Nat) : Int) - 1 = (m : Int) := by push_cast; ring
    rw [hcast, ih (i + 1)]

/-- If the operation fails on attempts `i, …, i + k - 1` and succeeds on
attempt `i + k`, and at least `k` retries are left, `attemptOperation`
resolves with that success value after exactly `k + 1` invocations. -/
theorem attemptOperation_firstSuccess {α ρ : Type} (op : Nat → Outcome α ρ)
    (delay : Nat) (retries : Int) (i k : Nat) (v : α)
    (hfail : ∀ j, j < k → (op (i + j)).isSuccess = false)
    (hsucc : op (i + k) = .success v)
    (hk : (k : Int) ≤ retries) :
    attemptOperation op delay retries i = (.resolved v, k + 1) := by
  induction k generalizing retries i with
  | zero =>
    exact attemptOperation_success op delay (by simpa using hsucc)
  | succ m ih =>
    obtain ⟨r, hr⟩ :=
      Outcome.exists_failure_of_not_isSuccess
        (by simpa using hfail 0 (Nat.succ_pos m))
    rw [attemptOperation_retry op delay hr (by omega)]
    rw [ih (retries - 1) (i + 1)
      (fun j hj => by
        have := hfail (j + 1) (by omega)
        simpa [Nat.add_assoc, Nat.add_comm 1 j] using this)
      (by
        have : i + 1 + m = i + (m + 1) := by omega
        rw [this]; exact hsucc)
      (by omega)]

/-- A successful outcome is a success with some value. -/
theorem Outcome.exists_success_of_isSuccess {α ρ : Type} {o : Outcome α ρ}
    (h : o.isSuccess = true) : ∃ v, o = .success v := by
  cases o with
  | success v => exact ⟨v, rfl⟩
  | failure r => simp [Outcome.isSuccess] at h

/-- Two operations whose invocations succeed and fail at the same indices
drive `attemptOperation` to the same invocation count and the same result
kind, whatever values and reasons they produce. -/
theorem attemptOperation_kind_congr {α₁ ρ₁ α₂ ρ₂ : Type}
    (op1 : Nat → Outcome α₁ ρ₁) (op2 : Nat → Outcome α₂ ρ₂) (delay : Nat)
    (h : ∀ j, (op1 j).isSuccess = (op2 j).isSuccess) (retries : Int) (i : Nat) :
    (attemptOperation op1 delay retries i).2 =
      (attemptOperation op2 delay retries i).2 ∧
    (attemptOperation op1 delay retries i).1.isResolved =
      (attemptOperation op2 delay retries i).1.isResolved := by
  cases h1 : op1 i with
  | success v =>
    obtain ⟨w, hw⟩ := Outcome.exists_success_of_isSuccess
      (show (op2 i).isSuccess = true by rw [← h i, h1]; rfl)
    rw [attemptOperation_success op1 delay h1,
        attemptOperation_success op2 delay hw]
    exact ⟨rfl, rfl⟩
  | failure r =>
    obtain ⟨w, hw⟩ := Outcome.exists_failure_of_not_isSuccess
      (show (op2 i).isSuccess = false by rw [← h i, h1]; rfl)
    by_cases hr : retries ≤ 0
    · rw [attemptOperation_exhausted op1 delay h1 hr,
          attemptOperation_exhausted op2 delay hw hr]
      exact ⟨rfl, rfl⟩
    · rw [attemptOperation_retry op1 delay h1 (by omega),
          attemptOperation_retry op2 delay hw (by omega)]
      obtain ⟨hc, hk⟩ :=
        attemptOperation_kind_congr op1 op2 delay h (retries - 1) (i + 1)
      exact ⟨by rw [hc], hk⟩
termination_by retries.toNat
decreasing_by omega

/-- Every rejection produced by `attemptOperation` is the bare
`Error("Maximum retries exhausted!")` with no cause attached. -/
theorem attemptOperation_rejected_eq {α ρ : Type} (op : Nat → Outcome α ρ)
    (delay : Nat) (retries : Int) (i : Nat) (e : JSError ρ)
    (h : (attemptOperation op delay retries i).1 = .rejected e) :
    e = maxRetriesError := by
  cases hoi : op i with
  | success v =>
    rw [attemptOperation_success op delay hoi] at h
    exact absurd h (by simp)
  | failure r =>
    by_cases hr : retries ≤ 0
    · rw [attemptOperation_exhausted op delay hoi hr] at h
      simpa using h.symm
    · rw [attemptOperation_retry op delay hoi (by omega)] at h
      exact attemptOperation_rejected_eq op delay (retries - 1) (i + 1) e h
termination_by retries.toNat
decreasing_by omega

/-- `attemptOperation` entered with `n` retries left performs at most
`n + 1` invocations, whatever the per-attempt outcomes. -/
theorem attemptOperation_count_le {α ρ : Type} (op : Nat → Outcome α ρ)
    (delay : Nat) (n : Nat) (i : Nat) :
    (attemptOperation op delay (n : Int) i).2 ≤ n + 1 := by
  induction n generalizing i with
  | zero =>
    cases hoi : op i with
    | success v => rw [attemptOperation_success op delay hoi]
    | failure r => rw [attemptOperation_exhausted op delay hoi (by omega)]
  | succ m ih =>
    cases hoi : op i with
    | success v => simp [attemptOperation_success op delay hoi]
    | failure r =>
      rw [attemptOperation_retry op delay hoi (by positivity)]
      have hcast : ((m + 1 : Nat) : Int) - 1 = (m : Int) := by push_cast; ring
      simpa [hcast] using Nat.add_le_add_right (ih (i + 1)) 1

/-- The scheduling trace strictly alternates invocations and waits of the
configured delay. -/
theorem eventTrace_alternates {α ρ : Type} (op : Nat → Outcome α ρ)
    (delay : Nat) (retries : Int) (i : Nat) :
    List.Chain' (eventSep delay) (eventTrace op delay retries i) := by
  rw [eventTrace]
  cases hoi : op i with
  | success v =>
    rw [eventTraceRest_success op delay hoi]
    simp
  | failure r =>
    by_cases hr : retries ≤ 0
    · rw [eventTraceRest_exhausted op delay hoi hr]
      simp
    · rw [eventTraceRest_retry op delay hoi (by omega)]
      have ih := eventTrace_alternates op delay (retries - 1) (i + 1)
      rw [eventTrace] at ih
      exact List.Chain'.cons rfl (List.Chain'.cons trivial ih)
termination_by retries.toNat
decreasing_by omega

/-- From `attempting retries i` onward, consecutive states of the trace are
related by the machine's transition relation. -/
theorem stateTraceRest_chain {α ρ : Type} (op : Nat → Outcome α ρ)
    (delay : Nat) (retries : Int) (i : Nat) :
    List.Chain (RetryStep op delay) (RState.attempting retries i)
      (stateTraceRest op delay retries i) := by
  cases hoi : op i with
  | success v =>
    rw [stateTraceRest_success op delay hoi]
    exact List.Chain.cons (RetryStep.succeed hoi) List.Chain.nil
  | failure r =>
    by_cases hr : retries ≤ 0
    · rw [stateTraceRest_exhausted op delay hoi hr]
      exact List.Chain.cons (RetryStep.exhaust hoi hr) List.Chain.nil
    · rw [stateTraceRest_retry op delay hoi (by omega)]
      exact List.Chain.cons (RetryStep.toWait hoi (by omega))
        (List.Chain.cons RetryStep.resume
          (stateTraceRest_chain op delay (retries - 1) (i + 1)))
termination_by retries.toNat
decreasing_by omega

/-- Started with a non-negative counter, every state of the trace satisfies
the per-state invariant: counters stay non-negative and every wait uses the
configured delay. -/
theorem stateTrace_stateOk {α ρ : Type} (op : Nat → Outcome α ρ)
    (delay : Nat) (retries : Int) (i : Nat) (hr0 : 0 ≤ retries) :
    ∀ s ∈ stateTrace op delay retries i, stateOk delay s := by
  intro s hs
  rw [stateTrace] at hs
  rcases List.mem_cons.mp hs with h | h
  · subst h
    exact hr0
  · cases hoi : op i with
    | success v =>
      rw [stateTraceRest_success op delay hoi] at h
      simp only [List.mem_singleton] at h
      subst h
      trivial
    | failure r =>
      by_cases hrr : retries ≤ 0
      · rw [stateTraceRest_exhausted op delay hoi hrr] at h
        simp only [List.mem_singleton] at h
        subst h
        trivial
      · rw [stateTraceRest_retry op delay hoi (by omega)] at h
        rcases List.mem_cons.mp h with h | h
        · subst h
          exact ⟨by omega, rfl⟩
        · exact stateTrace_stateOk op delay (retries - 1) (i + 1) (by omega) s
            (by rw [stateTrace]; exact h)
termination_by retries.toNat
decreasing_by omega

/-- Each in-flight attempt recorded in the trace carries the counter
obtained by decrementing the entry counter once per completed failure:
attempt `i2` runs with `retries - (i2 - i)` retries left. -/
theorem stateTrace_attempting_counter {α ρ : Type} (op : Nat → Outcome α ρ)
    (delay : Nat) (retries : Int) (i : Nat) :
    ∀ r2 i2, RState.attempting r2 i2 ∈ stateTrace op delay retries i →
      i ≤ i2 ∧ r2 = retries - ((i2 - i : Nat) : Int) := by
  intro r2 i2 hs
  rw [stateTrace] at hs
  rcases List.mem_cons.mp hs with h | h
  · obtain ⟨h1, h2⟩ := RState.attempting.inj h
    omega
  · cases hoi : op i with
    | success v =>
      rw [stateTraceRest_success op delay hoi] at h
      simp at h
    | failure r =>
      by_cases hrr : retries ≤ 0
      · rw [stateTraceRest_exhausted op delay hoi hrr] at h
        simp at h
      · rw [stateTraceRest_retry op delay hoi (by omega)] at h
        rcases List.mem_cons.mp h with h | h
        · simp at h
        · obtain ⟨hle, heq⟩ :=
            stateTrace_attempting_counter op delay (retries - 1) (i + 1) r2 i2
              (by rw [stateTrace]; exact h)
          omega
termination_by retries.toNat
decreasing_by omega

/-- Every attempt recorded in the trace other than the entry attempt is
preceded by a `waiting` state holding the same counter and attempt index:
no retry skips the suspension point. -/
theorem stateTrace_attempting_waited {α ρ : Type} (op : Nat → Outcome α ρ)
    (delay : Nat) (retries : Int) (i : Nat) :
    ∀ r2 i2, RState.attempting r2 i2 ∈ stateTrace op delay retries i →
      (r2 = retries ∧ i2 = i) ∨
        RState.waiting delay r2 i2 ∈ stateTrace op delay retries i := by
  intro r2 i2 hs
  rw [stateTrace] at hs
  rcases List.mem_cons.mp hs with h | h
  · obtain ⟨h1, h2⟩ := RState.attempting.inj h
    exact Or.inl ⟨h1, h2⟩
  · cases hoi : op i with
    | success v =>
      rw [stateTraceRest_success op delay hoi] at h
      simp at h
    | failure r =>
      by_cases hrr : retries ≤ 0
      · rw [stateTraceRest_exhausted op delay hoi hrr] at h
        simp at h
      · rw [stateTraceRest_retry op delay hoi (by omega)] at h
        rcases List.mem_cons.mp h with h | h
        · simp at h
        · rcases stateTrace_attempting_waited op delay (retries - 1) (i + 1) r2 i2
            (by rw [stateTrace]; exact h) with ⟨hr2, hi2⟩ | hmem
          · subst hr2
            subst hi2
            refine Or.inr ?_
            rw [stateTrace, stateTraceRest_retry op delay hoi (by omega)]
            exact List.mem_cons_of_mem _ (List.mem_cons_self _ _)
          · refine Or.inr ?_
            rw [stateTrace, stateTraceRest_retry op delay hoi (by omega)]
            refine List.mem_cons_of_mem _ ?_
            rw [stateTrace] at hmem
            rcases List.mem_cons.mp hmem with h2 | h2
            · simp at h2
            · exact List.mem_cons_of_mem _ (List.mem_cons_of_mem _ h2)
termination_by retries.toNat
decreasing_by omega

/-- The tail of the state trace ends in exactly one terminal state, and no
state before it is terminal. -/
theorem stateTraceRest_concat {α ρ : Type} (op : Nat → Outcome α ρ)
    (delay : Nat) (retries : Int) (i : Nat) :
    ∃ l t, stateTraceRest op delay retries i = l ++ [t] ∧
      (∀ s ∈ l, RState.isTerminal s = false) ∧ RState.isTerminal t = true := by
  cases hoi : op i with
  | success v =>
    refine ⟨[], RState.succeeded v, ?_, by simp, rfl⟩
    rw [stateTraceRest_success op delay hoi]
    rfl
  | failure r =>
    by_cases hr : retries ≤ 0
    · refine ⟨[], RState.failed maxRetriesError, ?_, by simp, rfl⟩
      rw [stateTraceRest_exhausted op delay hoi hr]
      rfl
    · obtain ⟨l, t, hl, hfr, ht⟩ :=
        stateTraceRest_concat op delay (retries - 1) (i + 1)
      refine ⟨RState.waiting delay (retries - 1) (i + 1) ::
        RState.attempting (retries - 1) (i + 1) :: l, t, ?_, ?_, ht⟩
      · rw [stateTraceRest_retry op delay hoi (by omega), hl]
        rfl
      · intro s hsl
        rcases List.mem_cons.mp hsl with h | h
        · subst h; rfl
        · rcases List.mem_cons.mp h with h | h
          · subst h; rfl
          · exact hfr s h
termination_by retries.toNat
decreasing_by omega

/-- Concrete run: one retry allowed, delay `0`, always-failing operation;
the executor attempts, waits, re-attempts, and fails. -/
theorem stateTrace_alwaysFailNet_eval :
    stateTrace alwaysFailNet 0 (1 : Int) 0 =
      [RState.attempting 1 0, RState.waiting 0 0 1, RState.attempting 0 1,
       RState.failed maxRetriesError] := by
  rw [stateTrace, stateTraceRest_retry alwaysFailNet 0 rfl one_pos]
  norm_num
  rw [stateTraceRest_exhausted alwaysFailNet 0 rfl (le_refl 0)]

/-- C1: for every `maxRetries = n ≥ 0` and every operation that fails on
each of its invocations, `retryOperation` invokes the operation exactly
`n + 1` times and settles with the retries-exhausted rejection; for
`n = 0` this is exactly one invocation and that rejection. -/
theorem retry_allFail_invocations {α ρ : Type} (op : Nat → Outcome α ρ)
    (n delay : Nat) (h : ∀ j, (op j).isSuccess = false) :
    retryOperation op (n : Int) delay = (.rejected maxRetriesError, n + 1) :=
  attemptOperation_allFail op delay n 0 h

/-- Witness for C1: always-failing operation, `maxRetries = 2`, three
invocations, exhaustion rejection. -/
theorem retry_allFail_invocations_witness :
    retryOperation alwaysFailTimeout (2 : Int) 1 =
      (.rejected maxRetriesError, 3) :=
  retry_allFail_invocations alwaysFailTimeout 2 1 (fun _ => rfl)

/-- C2: if the operation fails on its first `k` invocations and succeeds on
invocation `k + 1`, with `k ≤ n`, then `retryOperation` invokes the
operation exactly `k + 1` times and resolves with exactly the value of that
invocation, unmodified. -/
theorem retry_firstSuccess_value {α ρ : Type} (op : Nat → Outcome α ρ)
    (n k delay : Nat) (v : α) (hk : k ≤ n)
    (hfail : ∀ j, j < k → (op j).isSuccess = false)
    (hsucc : op k = .success v) :
    retryOperation op (n : Int) delay = (.resolved v, k + 1) :=
  attemptOperation_firstSuccess op delay n 0 k v
    (fun j hj => by simpa using hfail j hj) (by simpa using hsucc)
    (by omega)

/-- Witness for C2, the spec's concrete scenario: two failures then success
`42`, `maxRetries = 3`, three invocations, resolves with `42`. -/
theorem retry_firstSuccess_value_witness :
    retryOperation failTwiceThen42 (3 : Int) 1 = (.resolved 42, 3) :=
  retry_firstSuccess_value failTwiceThen42 3 2 1 42 (by omega)
    (fun j hj => by interval_cases j <;> rfl) rfl

/-- C3 counterexample: with `maxRetries = 0` and an operation that always
fails with reason `"network error"`, the settled failure is the constant
`Error("Maximum retries exhausted!")` with no cause attached — it neither
carries nor wraps the reason, and the run settles with the very same value
as a run whose operation fails with reason `"timeout"`, so the underlying
reason is discarded. -/
theorem retry_cause_dropped_counterexample :
    (retryOperation alwaysFailNet (0 : Int) 1).1.errCause = none ∧
    (retryOperation alwaysFailNet (0 : Int) 1).1 =
      .rejected { message := "Maximum retries exhausted!", cause := none } ∧
    retryOperation alwaysFailNet (0 : Int) 1 =
      retryOperation alwaysFailTimeout (0 : Int) 1 ∧
    "network error" ≠ "timeout" := by
  have h1 : retryOperation alwaysFailNet (0 : Int) 1 =
      (.rejected maxRetriesError, 1) := by
    rw [retryOperation]
    exact attemptOperation_exhausted alwaysFailNet 1 rfl (le_refl 0)
  have h2 : retryOperation alwaysFailTimeout (0 : Int) 1 =
      (.rejected maxRetriesError, 1) := by
    rw [retryOperation]
    exact attemptOperation_exhausted alwaysFailTimeout 1 rfl (le_refl 0)
  refine ⟨by rw [h1]; rfl, by rw [h1]; rfl, by rw [h1, h2], by decide⟩

/-- C3 (amended): whenever the attempt made with the budget exhausted
fails, `retryOperation` settles with the terminal failure
`Error("Maximum retries exhausted!")`, a fixed value with no cause
attached: it does not carry or wrap the underlying failure reason, which
the `catch` handler discards. -/
theorem retry_rejection_constant {α ρ : Type} (op : Nat → Outcome α ρ)
    (retries : Int) (delay : Nat) (e : JSError ρ)
    (h : (retryOperation op retries delay).1 = .rejected e) :
    e = maxRetriesError ∧ e.cause = none := by
  have he := attemptOperation_rejected_eq op delay retries 0 e h
  exact ⟨he, by rw [he]; rfl⟩

/-- Witness for the amended C3 at `maxRetries = 0` with an operation
failing with `"network error"`. -/
theorem retry_rejection_constant_witness :
    (maxRetriesError : JSError String) = maxRetriesError ∧
    (maxRetriesError : JSError String).cause = none :=
  retry_rejection_constant alwaysFailNet 0 1 maxRetriesError
    (by rw [retryOperation,
      attemptOperation_exhausted alwaysFailNet 1 rfl (le_refl 0)])

/-- C4: if the operation succeeds on its first invocation then
`retryOperation` invokes it exactly once and resolves with that value, for
every `maxRetries = n ≥ 0`: no attempt occurs after a success. -/
theorem retry_first_attempt_success {α ρ : Type} (op : Nat → Outcome α ρ)
    (n delay : Nat) (v : α) (h : op 0 = .success v) :
    retryOperation op (n : Int) delay = (.resolved v, 1) :=
  attemptOperation_success op delay h

/-- Witness for C4: an immediately succeeding operation with
`maxRetries = 5` is invoked once and its value returned. -/
theorem retry_first_attempt_success_witness :
    retryOperation (fun _ => (Outcome.success 7 : Outcome Nat String))
      (5 : Int) 2 = (.resolved 7, 1) :=
  retry_first_attempt_success (fun _ => Outcome.success 7) 5 2 7 rfl

/-- C5: for every delay `d > 0` the scheduling trace begins with the first
invocation — no wait precedes it — and strictly alternates invocations with
`setTimeout` suspensions of the full configured delay, so a suspension of
at least `d` separates every pair of consecutive invocations. -/
theorem retry_delay_between_attempts {α ρ : Type} (op : Nat → Outcome α ρ)
    (n d : Nat) (hd : 0 < d) :
    (eventTrace op d (n : Int) 0).head? = some (Event.invoke 0) ∧
    List.Chain' (eventSep d) (eventTrace op d (n : Int) 0) :=
  ⟨rfl, eventTrace_alternates op d (n : Int) 0⟩

/-- Witness for C5 at `d = 1`, `maxRetries = 1`, always-failing
operation. -/
theorem retry_delay_between_attempts_witness :
    (eventTrace alwaysFailNet 1 ((1 : Nat) : Int) 0).head? =
      some (Event.invoke 0) ∧
    List.Chain' (eventSep 1) (eventTrace alwaysFailNet 1 ((1 : Nat) : Int) 0) :=
  retry_delay_between_attempts alwaysFailNet 1 1 (by decide)

/-- C6: every execution follows the machine
`{idle, attempting, waiting, succeeded, failed}`: the state trace is a
chain of `RetryStep` transitions, in which a failure with budget left moves
`attempting` to `waiting` and decrements the counter exactly on that
transition while resuming re-enters `attempting` with the counter
unchanged; no transition leaves `succeeded` or `failed`; the trace ends in
exactly one terminal state; and every attempt after the first is preceded
by its `waiting` state, for every delay including `0`. -/
theorem retry_state_machine {α ρ : Type} (op : Nat → Outcome α ρ) (n d : Nat) :
    List.Chain (RetryStep op d) RState.idle (stateTrace op d (n : Int) 0) ∧
    (∀ (v : α) (s : RState α ρ), ¬ RetryStep op d (.succeeded v) s) ∧
    (∀ (e : JSError ρ) (s : RState α ρ), ¬ RetryStep op d (.failed e) s) ∧
    (∃ l t, stateTrace op d (n : Int) 0 = l ++ [t] ∧
      (∀ s ∈ l, RState.isTerminal s = false) ∧ RState.isTerminal t = true) ∧
    (∀ r i, RState.attempting r i ∈ stateTrace op d (n : Int) 0 → 0 < i →
      RState.waiting d r i ∈ stateTrace op d (n : Int) 0) := by
  refine ⟨?_, ?_, ?_, ?_, ?_⟩
  · rw [stateTrace]
    exact List.Chain.cons (RetryStep.start (n : Int))
      (stateTraceRest_chain op d (n : Int) 0)
  · intro v s hstep
    cases hstep
  · intro e s hstep
    cases hstep
  · obtain ⟨l, t, hl, hfr, ht⟩ := stateTraceRest_concat op d (n : Int) 0
    refine ⟨RState.attempting (n : Int) 0 :: l, t, ?_, ?_, ht⟩
    · rw [stateTrace, hl]
      rfl
    · intro s hs
      rcases List.mem_cons.mp hs with h | h
      · subst h
        rfl
      · exact hfr s h
  · intro r i hmem hi
    rcases stateTrace_attempting_waited op d (n : Int) 0 r i hmem with
      ⟨_, hieq⟩ | h
    · omega
    · exact h

/-- Witness for C6: with one retry and delay `0`, the second attempt's
state is preceded by its `waiting` state even though no wait is enforced. -/
theorem retry_state_machine_witness :
    RState.waiting 0 0 1 ∈ stateTrace alwaysFailNet 0 ((1 : Nat) : Int) 0 :=
  (retry_state_machine alwaysFailNet 1 0).2.2.2.2 0 1
    (by rw [Nat.cast_one, stateTrace_alwaysFailNet_eval]; decide)
    Nat.one_pos

/-- C7: for every `maxRetries = n ≥ 0` and every operation all of whose
invocations settle (operations in this model always settle with a success
or a failure), `retryOperation` settles after at most `n + 1` invocations,
whatever the pattern of per-attempt outcomes. -/
theorem retry_terminates_bounded {α ρ : Type} (op : Nat → Outcome α ρ)
    (n delay : Nat) :
    (retryOperation op (n : Int) delay).2 ≤ n + 1 :=
  attemptOperation_count_le op delay n 0

/-- C8: the retry decision never depends on the failure reason: two
executions with the same budget whose attempts succeed and fail at the same
indices perform the same number of invocations and settle with the same
outcome kind, whatever reasons (or values) the operations produce — every
failure is treated as retryable until the budget is exhausted. -/
theorem retry_reason_oblivious {α₁ ρ₁ α₂ ρ₂ : Type}
    (op1 : Nat → Outcome α₁ ρ₁) (op2 : Nat → Outcome α₂ ρ₂)
    (retries : Int) (delay : Nat)
    (h : ∀ j, (op1 j).isSuccess = (op2 j).isSuccess) :
    (retryOperation op1 retries delay).2 =
      (retryOperation op2 retries delay).2 ∧
    (retryOperation op1 retries delay).1.isResolved =
      (retryOperation op2 retries delay).1.isResolved :=
  attemptOperation_kind_congr op1 op2 delay h retries 0

/-- Witness for C8: failing with `"network error"` and failing with
`"timeout"` give the same invocation count and outcome kind. -/
theorem retry_reason_oblivious_witness :
    (retryOperation alwaysFailNet 1 0).2 =
      (retryOperation alwaysFailTimeout 1 0).2 ∧
    (retryOperation alwaysFailNet 1 0).1.isResolved =
      (retryOperation alwaysFailTimeout 1 0).1.isResolved :=
  retry_reason_oblivious alwaysFailNet alwaysFailTimeout 1 0 (fun _ => rfl)

/-- C9: starting from `maxRetries = n ≥ 0`, every state of the execution
satisfies the invariant — in-flight counters are non-negative and every
wait uses the configured delay, which never changes — and the counter of
attempt `i` is exactly `n - i`: decremented by exactly one per
retry-triggering failure, never below zero. -/
theorem retry_counter_invariant {α ρ : Type} (op : Nat → Outcome α ρ)
    (n d : Nat) :
    (∀ s ∈ stateTrace op d (n : Int) 0, stateOk d s) ∧
    (∀ r i, RState.attempting r i ∈ stateTrace op d (n : Int) 0 →
      0 ≤ r ∧ r = (n : Int) - i ∧ i ≤ n) := by
  refine ⟨stateTrace_stateOk op d (n : Int) 0 (by omega), ?_⟩
  intro r i hmem
  have h0 : stateOk d (RState.attempting r i) :=
    stateTrace_stateOk op d (n : Int) 0 (by omega) _ hmem
  obtain ⟨hle, heq⟩ := stateTrace_attempting_counter op d (n : Int) 0 r i hmem
  have h0' : 0 ≤ r := h0
  refine ⟨h0', by omega, by omega⟩

/-- Witness for C9: in the concrete run with one retry, the second attempt
carries counter `0 = 1 - 1`, still non-negative. -/
theorem retry_counter_invariant_witness :
    (0 : Int) ≤ 0 ∧ (0 : Int) = ((1 : Nat) : Int) - ((1 : Nat) : Int) ∧
      (1 : Nat) ≤ 1 :=
  (retry_counter_invariant alwaysFailNet 1 0).2 0 1
    (by rw [Nat.cast_one, stateTrace_alwaysFailNet_eval]; decide)

/-- C10: for every `retries < 0` — outside the spec's precondition — a
failing first invocation already exhausts the budget because the test is
`retries <= 0`: exactly one invocation, the retries-exhausted rejection,
identical to a run with `retries = 0`. -/
theorem retry_negative_budget {α ρ : Type} (op : Nat → Outcome α ρ)
    (retries : Int) (delay : Nat) (e : ρ)
    (hneg : retries < 0) (h0 : op 0 = .failure e) :
    retryOperation op retries delay = (.rejected maxRetriesError, 1) ∧
    retryOperation op retries delay = retryOperation op 0 delay := by
  have ha : retryOperation op retries delay =
      (.rejected maxRetriesError, 1) := by
    rw [retryOperation]
    exact attemptOperation_exhausted op delay h0 (by omega)
  have hb : retryOperation op 0 delay = (.rejected maxRetriesError, 1) := by
    rw [retryOperation]
    exact attemptOperation_exhausted op delay h0 (le_refl 0)
  exact ⟨ha, by rw [ha, hb]⟩

/-- Witness for C10 at `retries = -5`. -/
theorem retry_negative_budget_witness :
    retryOperation alwaysFailNet (-5) 2 = (.rejected maxRetriesError, 1) ∧
    retryOperation alwaysFailNet (-5) 2 = retryOperation alwaysFailNet 0 2 :=
  retry_negative_budget alwaysFailNet (-5) 2 "network error" (by omega) rfl
